import Mathlib

/-!
Shallow embedding of the Google-Maps extraction repository
(`starttogetdata.py` and `email_scaper.py`) and proofs about the claims
on its record store, scroll-loop state machine and email-enrichment pass.

Conventions: the CSV file becomes a `List` of rows; Python sets become
lists with membership; the Selenium driver is an opaque environment that
each loop iteration reads (number of rendered cards, scroll heights,
whether a driver call raised).  Heights are `Int`, counters `Nat`.
-/

/-- One record row of `gmaps_data.csv` (header list in `setup_files`).
Fields the extractor could not read hold the sentinel string "N/A". -/
structure GRecord where
  name : String
  rating : String
  reviews : String
  address : String
  phone : String
  website : String
  latitude : String
  longitude : String
  extracted_time : String
deriving Repr, DecidableEq

/-- The extractor's persistent/in-memory state touched by `save_place`:
the rows appended to `gmaps_data.csv` so far, `self.seen_places`
(a set of `(name, address)` keys, here a list with membership) and
`self.total_extracted`. -/
structure ExtractorState where
  rows : List GRecord
  seen_places : List (String × String)
  total_extracted : Nat
deriving Repr, DecidableEq

/-- `GoogleMapsExtractor.save_place`: computes the key
`(place_data['name'], place_data['address'])`; if already in
`seen_places` returns `False` without writing; otherwise appends one CSV
row, adds the key to `seen_places`, increments `total_extracted` and
returns `True`. -/
def save_place (s : ExtractorState) (p : GRecord) : Bool × ExtractorState :=
  let place_key := (p.name, p.address)
  if place_key ∈ s.seen_places then
    (false, s)
  else
    (true,
      { rows := s.rows ++ [p]
        seen_places := place_key :: s.seen_places
        total_extracted := s.total_extracted + 1 })

theorem save_place_mem_after (s : ExtractorState) (p : GRecord) :
    (p.name, p.address) ∈ (save_place s p).2.seen_places := by
  unfold save_place
  by_cases h : (p.name, p.address) ∈ s.seen_places <;> simp [h]

theorem save_place_skip (s : ExtractorState) (p : GRecord)
    (h : (p.name, p.address) ∈ s.seen_places) :
    save_place s p = (false, s) := by
  simp [save_place, h]

/-- C1: `save_place` is idempotent on the identity key `(name, address)`:
if the key is already in the in-memory seen-set it returns `false` and
changes nothing (no row written, seen-set and accepted count unchanged);
otherwise it appends exactly one row, records the key, increments the
accepted count and returns `true`; consequently a second call with a
record carrying the same key is always a no-op returning `false`, so the
same identity key is stored at most once. -/
theorem save_place_idempotent (s : ExtractorState) (p q : GRecord)
    (hkey : (q.name, q.address) = (p.name, p.address)) :
    (((p.name, p.address) ∈ s.seen_places → save_place s p = (false, s)) ∧
     ((p.name, p.address) ∉ s.seen_places →
        save_place s p =
          (true,
            { rows := s.rows ++ [p]
              seen_places := (p.name, p.address) :: s.seen_places
              total_extracted := s.total_extracted + 1 }))) ∧
    save_place (save_place s p).2 q = (false, (save_place s p).2) := by
  refine ⟨⟨fun h => save_place_skip s p h, fun h => ?_⟩, ?_⟩
  · simp [save_place, h]
  · apply save_place_skip
    rw [hkey]
    exact save_place_mem_after s p

/-- Concrete instance of C1: a fresh store, one record appended twice. -/
theorem save_place_idempotent_witness :
    ((("Joe", "1 Main St") ∈ ([] : List (String × String)) →
        save_place ⟨[], [], 0⟩ ⟨"Joe", "4.5", "10", "1 Main St", "N/A", "N/A", "N/A", "N/A", "N/A"⟩ =
          (false, ⟨[], [], 0⟩)) ∧
     (("Joe", "1 Main St") ∉ ([] : List (String × String)) →
        save_place ⟨[], [], 0⟩ ⟨"Joe", "4.5", "10", "1 Main St", "N/A", "N/A", "N/A", "N/A", "N/A"⟩ =
          (true,
            { rows := [] ++ [⟨"Joe", "4.5", "10", "1 Main St", "N/A", "N/A", "N/A", "N/A", "N/A"⟩]
              seen_places := ("Joe", "1 Main St") :: []
              total_extracted := 0 + 1 }))) ∧
    save_place (save_place ⟨[], [], 0⟩ ⟨"Joe", "4.5", "10", "1 Main St", "N/A", "N/A", "N/A", "N/A", "N/A"⟩).2
        ⟨"Joe", "4.5", "10", "1 Main St", "N/A", "N/A", "N/A", "N/A", "N/A"⟩ =
      (false, (save_place ⟨[], [], 0⟩ ⟨"Joe", "4.5", "10", "1 Main St", "N/A", "N/A", "N/A", "N/A", "N/A"⟩).2) :=
  save_place_idempotent ⟨[], [], 0⟩
    ⟨"Joe", "4.5", "10", "1 Main St", "N/A", "N/A", "N/A", "N/A", "N/A"⟩
    ⟨"Joe", "4.5", "10", "1 Main St", "N/A", "N/A", "N/A", "N/A", "N/A"⟩ rfl

/-!
## Scroll-loop state machine (`GoogleMapsExtractor.monitor_scrolling`)

One loop iteration of `monitor_scrolling` is modelled as a step function
over an environment record describing what the driver delivers on that
iteration.  Driver calls can raise; in the body there are two groups of
driver-call sites whose state effects differ, so a raise is modelled by
which group it hits:
* `atFind`: `wait_for_element` / `find_elements` raises before any of
  the loop's variables were mutated;
* `atScript`: one of the `execute_script` scroll/height calls (or the
  height re-read in the stall branch) raises, i.e. after the card-scan
  mutations (`last_processed_index`, `no_new_results_count`,
  `processed_count`) but before any height/retries bookkeeping.
The per-card pipeline (`extract_place_details` + `save_place`) catches
all of its own exceptions, so it never raises into this loop; the number
of cards the pipeline saved in an iteration is supplied abstractly by
the environment (`savedNew`).
-/

/-- Where (if anywhere) a driver call raises during one iteration. -/
inductive ThrowSite where
  | noThrow
  | atFind
  | atScript
deriving Repr, DecidableEq

/-- What the page/driver delivers to one iteration of the loop:
whether the `div[role="feed"]` panel was found, how many `div.Nv2PK`
cards are rendered, the `scrollHeight` read after the short pause, the
`scrollHeight` re-read after the long `WAIT_FOR_NEW_RESULTS` pause, how
many of the newly dispatched cards `save_place` accepted, and whether a
driver call raised. -/
structure ScrollEnv where
  panelFound : Bool
  cards : Nat
  newHeight : Int
  updatedHeight : Int
  savedNew : Nat
  throw : ThrowSite
deriving Repr, DecidableEq

/-- The loop-local variables of `monitor_scrolling` plus the instance
field `self.last_processed_index`. -/
structure ScrollState where
  lastHeight : Int
  retries : Nat
  noNewResultsCount : Nat
  lastProcessedIndex : Nat
  processedCount : Nat
deriving Repr, DecidableEq

/-- Outcome of one iteration: either the loop continues with a new state
(also recording which card indices were dispatched to the extraction
pipeline this pass), or the loop `break`s because the scrollable results
panel was not found. -/
inductive StepOut where
  | cont (s : ScrollState) (dispatched : List Nat)
  | halt (s : ScrollState)
deriving Repr, DecidableEq

/-- `MAX_RETRIES` constant of `starttogetdata.py`. -/
def MAX_RETRIES : Nat := 3

/-- One iteration of the `while` body of `monitor_scrolling`.
Mirrors the source line by line: find the feed panel (`break` if absent);
take `new_cards = cards[last_processed_index:]`; if non-empty, dispatch
each new card, set `last_processed_index = len(cards)` and reset
`no_new_results_count` to 0, else increment `no_new_results_count`;
scroll and read `scrollHeight`; if it equals `last_height`, wait long and
re-read: unchanged increments `no_new_results_count`, changed records the
height and resets `retries`; if the first read differed, record it and
reset `retries`.  A raise at either throw site lands in the `except`
block, which only increments `retries`. -/
def scrollStep (s : ScrollState) (e : ScrollEnv) : StepOut :=
  match e.throw with
  | ThrowSite.atFind => StepOut.cont { s with retries := s.retries + 1 } []
  | _ =>
    if e.panelFound = false then
      StepOut.halt s
    else
      let n := e.cards
      let dispatched := List.range' s.lastProcessedIndex (n - s.lastProcessedIndex)
      let s1 :=
        if s.lastProcessedIndex < n then
          { s with lastProcessedIndex := n
                   noNewResultsCount := 0
                   processedCount := s.processedCount + e.savedNew }
        else
          { s with noNewResultsCount := s.noNewResultsCount + 1 }
      match e.throw with
      | ThrowSite.atScript => StepOut.cont { s1 with retries := s1.retries + 1 } dispatched
      | _ =>
        if e.newHeight = s.lastHeight then
          if e.updatedHeight = e.newHeight then
            StepOut.cont { s1 with noNewResultsCount := s1.noNewResultsCount + 1 } dispatched
          else
            StepOut.cont { s1 with lastHeight := e.updatedHeight, retries := 0 } dispatched
        else
          StepOut.cont { s1 with lastHeight := e.newHeight, retries := 0 } dispatched

/-- The `while retries < MAX_RETRIES and no_new_results_count < 3`
guard. -/
def loopCond (s : ScrollState) : Bool :=
  decide (s.retries < MAX_RETRIES) && decide (s.noNewResultsCount < 3)

/-- Run the loop over a finite prefix of environment observations;
returns the state in which the loop is left (either because the guard
became false, because the panel-miss `break` fired, or because the
supplied observations ran out). -/
def runScroll : ScrollState → List ScrollEnv → ScrollState
  | s, [] => s
  | s, e :: es =>
    if loopCond s then
      match scrollStep s e with
      | StepOut.halt s' => s'
      | StepOut.cont s' _ => runScroll s' es
    else s

/-- `true` iff, over this observation prefix, the loop exits because its
guard became false (a normal "Done" exit, not the panel-miss `break` and
not exhaustion of the prefix while still looping). -/
def exitsNormally : ScrollState → List ScrollEnv → Bool
  | s, [] => !loopCond s
  | s, e :: es =>
    if loopCond s then
      match scrollStep s e with
      | StepOut.halt _ => false
      | StepOut.cont s' _ => exitsNormally s' es
    else true

/-- An iteration performs a confirmed height-stall check when no driver
call raised, the panel was found, the post-scroll height equals the last
recorded height and the long-pause re-read confirms it unchanged. -/
def confirmedStall (s : ScrollState) (e : ScrollEnv) : Bool :=
  decide (e.throw = ThrowSite.noThrow) && e.panelFound &&
    decide (e.newHeight = s.lastHeight) && decide (e.updatedHeight = e.newHeight)

/-- Number of confirmed height-stall checks the loop actually performs
over this observation prefix. -/
def countConfirmedStalls : ScrollState → List ScrollEnv → Nat
  | _, [] => 0
  | s, e :: es =>
    if loopCond s then
      match scrollStep s e with
      | StepOut.halt _ => 0
      | StepOut.cont s' _ =>
          (if confirmedStall s e then 1 else 0) + countConfirmedStalls s' es
    else 0

theorem runScroll_fixed_of_guard_false (s : ScrollState) (es : List ScrollEnv)
    (h : loopCond s = false) :
    runScroll s es = s ∧ exitsNormally s es = true := by
  cases es with
  | nil => simp [runScroll, exitsNormally, h]
  | cons e es => simp [runScroll, exitsNormally, h]

/-- C2 counterexample: a three-iteration error-free trace (panel always
found, no driver call raises, the error counter stays 0) on which the
loop exits normally although not a single confirmed height-stall check
was performed: each iteration renders no new card (so
`no_new_results_count` climbs to 3 through the empty-scan branch) while
the content height keeps changing (so the stall re-check never runs).
This refutes "the session never terminates before 3 consecutive
confirmed height-stall checks". -/
theorem done_without_stalls_cex :
    exitsNormally ⟨0, 0, 0, 0, 0⟩
        [⟨true, 0, 10, 0, 0, ThrowSite.noThrow⟩,
         ⟨true, 0, 20, 0, 0, ThrowSite.noThrow⟩,
         ⟨true, 0, 30, 0, 0, ThrowSite.noThrow⟩] = true ∧
    countConfirmedStalls ⟨0, 0, 0, 0, 0⟩
        [⟨true, 0, 10, 0, 0, ThrowSite.noThrow⟩,
         ⟨true, 0, 20, 0, 0, ThrowSite.noThrow⟩,
         ⟨true, 0, 30, 0, 0, ThrowSite.noThrow⟩] = 0 ∧
    (runScroll ⟨0, 0, 0, 0, 0⟩
        [⟨true, 0, 10, 0, 0, ThrowSite.noThrow⟩,
         ⟨true, 0, 20, 0, 0, ThrowSite.noThrow⟩,
         ⟨true, 0, 30, 0, 0, ThrowSite.noThrow⟩]).retries = 0 := by
  decide

/-- C2 amended: the loop's normal exit is governed by the single shared
counter `no_new_results_count` — incremented both when a scan pass finds
no new cards and when a stall re-check confirms an unchanged height,
reset only when a scan pass finds new cards — not by a dedicated
confirmed-stall counter.  Whenever the loop exits normally with the
error counter below its ceiling, that shared counter has reached 3; and
once it has reached 3 the loop performs no further iteration and exits
normally at once. -/
theorem scroll_done_iff_counter (s : ScrollState) (es : List ScrollEnv) :
    (exitsNormally s es = true → (runScroll s es).retries < MAX_RETRIES →
      3 ≤ (runScroll s es).noNewResultsCount) ∧
    (3 ≤ s.noNewResultsCount →
      runScroll s es = s ∧ exitsNormally s es = true) := by
  constructor
  · induction es generalizing s with
    | nil =>
      intro hex hret
      simp [exitsNormally, loopCond, MAX_RETRIES] at hex
      simp [runScroll, MAX_RETRIES] at hret ⊢
      omega
    | cons e es ih =>
      intro hex hret
      by_cases hc : loopCond s = true
      · simp [exitsNormally, hc] at hex
        simp [runScroll, hc] at hret ⊢
        cases hstep : scrollStep s e with
        | halt s' => simp [hstep] at hex
        | cont s' d =>
          simp [hstep] at hex hret ⊢
          exact ih s' hex hret
      · have hc' : loopCond s = false := by
          cases h : loopCond s
          · rfl
          · exact absurd h hc
        have hfix := runScroll_fixed_of_guard_false s (e :: es) hc'
        rw [hfix.1] at hret ⊢
        simp [MAX_RETRIES] at hret
        simp [loopCond, MAX_RETRIES] at hc'
        omega
  · intro h3
    apply runScroll_fixed_of_guard_false
    simp [loopCond]
    omega

/-- Concrete instance of C2 (amended): a state whose shared counter is
already 3 exits normally at once, and conversely a normal exit with the
error counter 0 has the shared counter at 3 or more. -/
theorem scroll_done_iff_counter_witness :
    3 ≤ (runScroll ⟨0, 0, 3, 0, 0⟩ []).noNewResultsCount ∧
    runScroll ⟨0, 0, 3, 0, 0⟩ [] = ⟨0, 0, 3, 0, 0⟩ ∧
    exitsNormally ⟨0, 0, 3, 0, 0⟩ [] = true :=
  ⟨(scroll_done_iff_counter ⟨0, 0, 3, 0, 0⟩ []).1 (by decide) (by decide),
   (scroll_done_iff_counter ⟨0, 0, 3, 0, 0⟩ []).2 (by decide)⟩

theorem scrollStep_noThrow (s : ScrollState) (e : ScrollEnv)
    (ht : e.throw = ThrowSite.noThrow) (hp : e.panelFound = true) :
    scrollStep s e =
      StepOut.cont
        { lastHeight :=
            (if e.newHeight = s.lastHeight then
               (if e.updatedHeight = e.newHeight then s.lastHeight else e.updatedHeight)
             else e.newHeight)
          retries :=
            (if e.newHeight = s.lastHeight ∧ e.updatedHeight = e.newHeight
             then s.retries else 0)
          noNewResultsCount :=
            (if s.lastProcessedIndex < e.cards then 0 else s.noNewResultsCount + 1) +
              (if e.newHeight = s.lastHeight ∧ e.updatedHeight = e.newHeight
               then 1 else 0)
          lastProcessedIndex :=
            (if s.lastProcessedIndex < e.cards then e.cards else s.lastProcessedIndex)
          processedCount :=
            (if s.lastProcessedIndex < e.cards
             then s.processedCount + e.savedNew else s.processedCount) }
        (List.range' s.lastProcessedIndex (e.cards - s.lastProcessedIndex)) := by
  by_cases hh : e.newHeight = s.lastHeight
  · by_cases hu : e.updatedHeight = e.newHeight
    · have hu' : e.updatedHeight = s.lastHeight := hh ▸ hu
      by_cases hlt : s.lastProcessedIndex < e.cards <;>
        simp [scrollStep, ht, hp, hlt, hh, hu, hu']
    · have hu' : e.updatedHeight ≠ s.lastHeight := by rw [← hh]; exact hu
      by_cases hlt : s.lastProcessedIndex < e.cards <;>
        simp [scrollStep, ht, hp, hlt, hh, hu, hu']
  · by_cases hlt : s.lastProcessedIndex < e.cards <;>
      simp [scrollStep, ht, hp, hlt, hh]

theorem scrollStep_atScript (s : ScrollState) (e : ScrollEnv)
    (ht : e.throw = ThrowSite.atScript) (hp : e.panelFound = true) :
    scrollStep s e =
      StepOut.cont
        { lastHeight := s.lastHeight
          retries := s.retries + 1
          noNewResultsCount :=
            (if s.lastProcessedIndex < e.cards then 0 else s.noNewResultsCount + 1)
          lastProcessedIndex :=
            (if s.lastProcessedIndex < e.cards then e.cards else s.lastProcessedIndex)
          processedCount :=
            (if s.lastProcessedIndex < e.cards
             then s.processedCount + e.savedNew else s.processedCount) }
        (List.range' s.lastProcessedIndex (e.cards - s.lastProcessedIndex)) := by
  by_cases hlt : s.lastProcessedIndex < e.cards <;> simp [scrollStep, ht, hp, hlt]

/-- C3 counterexample: an error-free iteration in which the re-read
height (50) differs from the last recorded height (0).  The code records
the new height and resets `retries` to 0, but the shared
no-new-results/stall counter is NOT reset: it ends the iteration at 2
(incremented by the empty scan pass from 1), where the claim demands 0.
-/
theorem height_change_keeps_counter_cex :
    scrollStep ⟨0, 1, 1, 0, 0⟩ ⟨true, 0, 50, 0, 0, ThrowSite.noThrow⟩ =
      StepOut.cont ⟨50, 0, 2, 0, 0⟩ [] ∧
    (2 : Nat) ≠ 0 := by
  decide

/-- C3 amended: in an error-free iteration with the panel found, if the
re-read content height differs from the last recorded height — at the
short-pause check, or at the long stall re-check — then the new height
is recorded and the error-retry counter `retries` is reset to 0 before
looping back; the no-new-results/stall counter is NOT touched by the
height branches: it is 0 or incremented exactly as the scan pass
(new cards or not) determined earlier in the same iteration. -/
theorem height_change_resets_retries_only (s : ScrollState) (e : ScrollEnv)
    (hthrow : e.throw = ThrowSite.noThrow) (hpanel : e.panelFound = true)
    (hchange : e.newHeight ≠ s.lastHeight ∨
      (e.newHeight = s.lastHeight ∧ e.updatedHeight ≠ e.newHeight)) :
    ∃ s' d, scrollStep s e = StepOut.cont s' d ∧ s'.retries = 0 ∧
      s'.lastHeight =
        (if e.newHeight = s.lastHeight then e.updatedHeight else e.newHeight) ∧
      s'.noNewResultsCount =
        (if s.lastProcessedIndex < e.cards then 0 else s.noNewResultsCount + 1) := by
  have hfalse : ¬(e.newHeight = s.lastHeight ∧ e.updatedHeight = e.newHeight) := by
    rcases hchange with h | ⟨h1, h2⟩
    · exact fun hc => h hc.1
    · exact fun hc => h2 hc.2
  rw [scrollStep_noThrow s e hthrow hpanel]
  refine ⟨_, _, rfl, ?_, ?_, ?_⟩
  · simp [hfalse]
  · rcases hchange with h | ⟨h1, h2⟩
    · simp [h]
    · simp [h1, h2]
      exact fun h => h.symm
  · simp [hfalse]

/-- Concrete instance of C3 (amended), at the short-pause check. -/
theorem height_change_resets_retries_only_witness :
    ∃ s' d,
      scrollStep ⟨0, 2, 1, 0, 0⟩ ⟨true, 0, 50, 0, 0, ThrowSite.noThrow⟩ =
        StepOut.cont s' d ∧ s'.retries = 0 ∧
      s'.lastHeight =
        (if (50 : Int) = (⟨0, 2, 1, 0, 0⟩ : ScrollState).lastHeight
         then (0 : Int) else 50) ∧
      s'.noNewResultsCount = (if (0 : Nat) < 0 then 0 else 1 + 1) :=
  height_change_resets_retries_only ⟨0, 2, 1, 0, 0⟩
    ⟨true, 0, 50, 0, 0, ThrowSite.noThrow⟩ rfl rfl (Or.inl (by decide))

/-- C4: a scan pass with cursor `k = lastProcessedIndex` and `n ≥ k`
rendered cards (and no raise before the scan) dispatches exactly the
cards at indices `[k, n)` — in source terms `new_cards =
cards[self.last_processed_index:]` — and leaves the cursor at `n`
(`self.last_processed_index = len(cards)` when the slice was non-empty;
unchanged, hence already `n`, when it was empty). -/
theorem scan_pass_dispatches_new (s : ScrollState) (e : ScrollEnv)
    (hthrow : e.throw ≠ ThrowSite.atFind) (hpanel : e.panelFound = true)
    (hk : s.lastProcessedIndex ≤ e.cards) :
    ∃ s', scrollStep s e =
        StepOut.cont s'
          (List.range' s.lastProcessedIndex (e.cards - s.lastProcessedIndex)) ∧
      s'.lastProcessedIndex = e.cards := by
  cases ht : e.throw with
  | atFind => exact absurd ht hthrow
  | atScript =>
    rw [scrollStep_atScript s e ht hpanel]
    refine ⟨_, rfl, ?_⟩
    by_cases hlt : s.lastProcessedIndex < e.cards <;> simp [hlt] <;> omega
  | noThrow =>
    rw [scrollStep_noThrow s e ht hpanel]
    refine ⟨_, rfl, ?_⟩
    by_cases hlt : s.lastProcessedIndex < e.cards <;> simp [hlt] <;> omega

/-- Concrete instance of C4: cards `[0,5)` already processed, cards
`[5,8)` newly appended — one pass dispatches exactly indices 5, 6, 7 and
advances the cursor to 8. -/
theorem scan_pass_dispatches_new_witness :
    ∃ s', scrollStep ⟨0, 0, 0, 5, 0⟩ ⟨true, 8, 100, 0, 3, ThrowSite.noThrow⟩ =
        StepOut.cont s' (List.range' 5 (8 - 5)) ∧
      s'.lastProcessedIndex = 8 :=
  scan_pass_dispatches_new ⟨0, 0, 0, 5, 0⟩ ⟨true, 8, 100, 0, 3, ThrowSite.noThrow⟩
    (by decide) rfl (by decide)

/-- C6 counterexample: a successful (exception-free) iteration that ends
in a confirmed stall leaves `retries` at its old value 2 — the code only
resets `retries` on the height-change branches, not on every successful
iteration as the claim states. -/
theorem stall_iteration_keeps_retries_cex :
    scrollStep ⟨10, 2, 0, 0, 0⟩ ⟨true, 0, 10, 10, 0, ThrowSite.noThrow⟩ =
      StepOut.cont ⟨10, 2, 2, 0, 0⟩ [] ∧
    (2 : Nat) ≠ 0 := by
  decide

/-- C6 amended: `retries` is incremented exactly when a driver call
raises during an iteration; on an exception-free iteration with the
panel found it is reset to 0 exactly when the content height changed at
the short-pause check or at the long stall re-check, and left unchanged
when the stall was confirmed; and once `retries` has reached
`MAX_RETRIES` the loop performs no further iteration and exits
normally — the final-tally log line is reached, no exception escapes the
loop. -/
theorem retries_policy (s : ScrollState) (e : ScrollEnv) (es : List ScrollEnv) :
    (e.throw ≠ ThrowSite.noThrow → e.panelFound = true →
      ∃ s' d, scrollStep s e = StepOut.cont s' d ∧ s'.retries = s.retries + 1) ∧
    (e.throw = ThrowSite.noThrow → e.panelFound = true →
      ∃ s' d, scrollStep s e = StepOut.cont s' d ∧
        s'.retries =
          (if e.newHeight = s.lastHeight ∧ e.updatedHeight = e.newHeight
           then s.retries else 0)) ∧
    (MAX_RETRIES ≤ s.retries →
      runScroll s es = s ∧ exitsNormally s es = true) := by
  refine ⟨?_, ?_, ?_⟩
  · intro ht hp
    cases hthrow : e.throw with
    | noThrow => exact absurd hthrow ht
    | atFind => simp [scrollStep, hthrow]
    | atScript =>
      rw [scrollStep_atScript s e hthrow hp]
      exact ⟨_, _, rfl, rfl⟩
  · intro ht hp
    rw [scrollStep_noThrow s e ht hp]
    exact ⟨_, _, rfl, rfl⟩
  · intro hr
    apply runScroll_fixed_of_guard_false
    simp [loopCond, MAX_RETRIES] at hr ⊢
    omega

/-- Concrete instances of C6 (amended): an iteration whose only driver
failure is a raise increments `retries`; a state at the retry ceiling
exits normally at once. -/
theorem retries_policy_witness :
    (∃ s' d,
        scrollStep ⟨0, 1, 0, 0, 0⟩ ⟨true, 0, 10, 0, 0, ThrowSite.atFind⟩ =
          StepOut.cont s' d ∧ s'.retries = 1 + 1) ∧
    runScroll ⟨0, 3, 0, 0, 0⟩ [] = ⟨0, 3, 0, 0, 0⟩ ∧
    exitsNormally ⟨0, 3, 0, 0, 0⟩ [] = true :=
  ⟨(retries_policy ⟨0, 1, 0, 0, 0⟩ ⟨true, 0, 10, 0, 0, ThrowSite.atFind⟩ []).1
      (by decide) rfl,
   (retries_policy ⟨0, 3, 0, 0, 0⟩ ⟨true, 0, 10, 0, 0, ThrowSite.noThrow⟩ []).2.2
      (by decide)⟩

/-- The state carried out of an iteration, for either outcome. -/
def StepOut.state : StepOut → ScrollState
  | StepOut.cont s _ => s
  | StepOut.halt s => s

theorem scrollStep_panelMiss (s : ScrollState) (e : ScrollEnv)
    (ht : e.throw ≠ ThrowSite.atFind) (hp : e.panelFound = false) :
    scrollStep s e = StepOut.halt s := by
  cases hthrow : e.throw with
  | atFind => exact absurd hthrow ht
  | atScript => simp [scrollStep, hthrow, hp]
  | noThrow => simp [scrollStep, hthrow, hp]

theorem scrollStep_halt_eq (s : ScrollState) (e : ScrollEnv) (s' : ScrollState)
    (h : scrollStep s e = StepOut.halt s') : s' = s := by
  cases hthrow : e.throw with
  | atFind => simp [scrollStep, hthrow] at h
  | atScript =>
    cases hp : e.panelFound
    · rw [scrollStep_panelMiss s e (by rw [hthrow]; decide) hp] at h
      simp at h
      exact h.symm
    · rw [scrollStep_atScript s e hthrow hp] at h
      simp at h
  | noThrow =>
    cases hp : e.panelFound
    · rw [scrollStep_panelMiss s e (by rw [hthrow]; decide) hp] at h
      simp at h
      exact h.symm
    · rw [scrollStep_noThrow s e hthrow hp] at h
      simp at h

theorem scrollStep_index_cases (s : ScrollState) (e : ScrollEnv) :
    (scrollStep s e).state.lastProcessedIndex = s.lastProcessedIndex ∨
    ((scrollStep s e).state.lastProcessedIndex = e.cards ∧
      s.lastProcessedIndex < e.cards) := by
  cases hthrow : e.throw with
  | atFind =>
    left
    simp [scrollStep, hthrow, StepOut.state]
  | atScript =>
    cases hp : e.panelFound
    · left
      rw [scrollStep_panelMiss s e (by rw [hthrow]; decide) hp]
      rfl
    · rw [scrollStep_atScript s e hthrow hp]
      by_cases hlt : s.lastProcessedIndex < e.cards
      · right
        simp [StepOut.state, hlt]
      · left
        simp [StepOut.state, hlt]
  | noThrow =>
    cases hp : e.panelFound
    · left
      rw [scrollStep_panelMiss s e (by rw [hthrow]; decide) hp]
      rfl
    · rw [scrollStep_noThrow s e hthrow hp]
      by_cases hlt : s.lastProcessedIndex < e.cards
      · right
        simp [StepOut.state, hlt]
      · left
        simp [StepOut.state, hlt]

/-- The sequence of iterations the loop actually executes on an
observation prefix, each paired with the state it left behind. -/
def execStates : ScrollState → List ScrollEnv → List (ScrollEnv × ScrollState)
  | _, [] => []
  | s, e :: es =>
    if loopCond s then
      match scrollStep s e with
      | StepOut.halt s' => [(e, s')]
      | StepOut.cont s' _ => (e, s') :: execStates s' es
    else []

/-- The rendered card list is append-only: along the observation prefix
the number of rendered cards never drops, and it starts at or above the
bound `m`. -/
def cardsMonotone (m : Nat) : List ScrollEnv → Bool
  | [] => true
  | e :: es => decide (m ≤ e.cards) && cardsMonotone e.cards es

/-- After every executed iteration the cursor has not decreased (from
the bound `k`, then from its previous value) and does not exceed the
number of cards rendered during that iteration. -/
def indexMonotone : Nat → List (ScrollEnv × ScrollState) → Bool
  | _, [] => true
  | k, (e, s) :: rest =>
      decide (k ≤ s.lastProcessedIndex) &&
        decide (s.lastProcessedIndex ≤ e.cards) &&
        indexMonotone s.lastProcessedIndex rest

theorem cardsMonotone_mono (m m' : Nat) (es : List ScrollEnv)
    (h : m' ≤ m) (hm : cardsMonotone m es = true) :
    cardsMonotone m' es = true := by
  cases es with
  | nil => simp [cardsMonotone]
  | cons e es =>
    simp [cardsMonotone, Bool.and_eq_true] at hm ⊢
    exact ⟨le_trans h hm.1, hm.2⟩

/-- C5: invariant of the scroll loop.  On any observation prefix whose
rendered-card counts are append-only (non-decreasing, starting at or
above the current cursor), across every executed iteration
`last_processed_index` never decreases and never exceeds the number of
cards rendered in that iteration. -/
theorem last_processed_index_invariant (s : ScrollState) (es : List ScrollEnv)
    (hmono : cardsMonotone s.lastProcessedIndex es = true) :
    indexMonotone s.lastProcessedIndex (execStates s es) = true := by
  induction es generalizing s with
  | nil => simp [execStates, indexMonotone]
  | cons e es ih =>
    simp [cardsMonotone, Bool.and_eq_true] at hmono
    obtain ⟨hke, hrest⟩ := hmono
    by_cases hc : loopCond s = true
    · cases hstep : scrollStep s e with
      | halt s' =>
        have hs' := scrollStep_halt_eq s e s' hstep
        subst hs'
        simp [execStates, hc, hstep, indexMonotone, Bool.and_eq_true]
        exact hke
      | cont s' d =>
        have hidx := scrollStep_index_cases s e
        rw [hstep] at hidx
        simp [StepOut.state] at hidx
        have hmono1 : s.lastProcessedIndex ≤ s'.lastProcessedIndex := by
          rcases hidx with h | ⟨h, hlt⟩ <;> omega
        have hle : s'.lastProcessedIndex ≤ e.cards := by
          rcases hidx with h | ⟨h, hlt⟩ <;> omega
        simp [execStates, hc, hstep, indexMonotone, Bool.and_eq_true]
        refine ⟨⟨hmono1, hle⟩, ?_⟩
        exact ih s' (cardsMonotone_mono e.cards s'.lastProcessedIndex es hle hrest)
    · have hc' : loopCond s = false := by
        cases h : loopCond s
        · rfl
        · exact absurd h hc
      simp [execStates, hc', indexMonotone]

/-- Concrete instance of C5: two iterations with the card count growing
2 → 5; the cursor climbs 0 → 2 → 5 and stays within bounds. -/
theorem last_processed_index_invariant_witness :
    indexMonotone (⟨0, 0, 0, 0, 0⟩ : ScrollState).lastProcessedIndex
      (execStates ⟨0, 0, 0, 0, 0⟩
        [⟨true, 2, 10, 0, 2, ThrowSite.noThrow⟩,
         ⟨true, 5, 20, 0, 3, ThrowSite.noThrow⟩]) = true :=
  last_processed_index_invariant ⟨0, 0, 0, 0, 0⟩
    [⟨true, 2, 10, 0, 2, ThrowSite.noThrow⟩,
     ⟨true, 5, 20, 0, 3, ThrowSite.noThrow⟩] (by decide)

/-!
## Email enrichment pass (`email_scaper.py`)

The HTTP fetch is the spec's opaque capability: for each record the
environment supplies either `none` (the fetch failed / raised) or the
list of candidate address strings the regex-and-filter step of
`scrape_email_from_website` extracted from the response body.  The
output CSV is a `List` of rows wrapped in `Option` (`none` = the file
does not exist yet).
-/

/-- Python's `str.lower` on the underlying character list. -/
def lowerString (s : String) : String :=
  ⟨s.data.map Char.toLower⟩

/-- Python's `str.strip`: drop leading and trailing whitespace. -/
def stripString (s : String) : String :=
  ⟨((s.data.dropWhile Char.isWhitespace).reverse.dropWhile
      Char.isWhitespace).reverse⟩

/-- `EmailScraper.normalize_email`: `email.lower().strip()`. -/
def normalize_email (email : String) : String :=
  stripString (lowerString email)

/-- `EmailScraper.is_unique_email` acting on the explicit
`seen_emails` set: returns whether the email is new and the updated
set. -/
def is_unique_email (seen : List String) (email : String) :
    Bool × List String :=
  let normalized := normalize_email email
  if normalized ∈ seen then (false, seen)
  else (true, normalized :: seen)

/-- `EmailScraper.process_emails`: keeps, in input order, each email
whose normalized form was not seen before (in its original casing), and
threads the `seen_emails` set. -/
def process_emails (seen : List String) : List String → List String × List String
  | [] => ([], seen)
  | email :: rest =>
    let u := is_unique_email seen email
    if u.1 then
      let r := process_emails u.2 rest
      (email :: r.1, r.2)
    else
      process_emails u.2 rest

theorem is_unique_email_mem (seen : List String) (email : String)
    (h : normalize_email email ∈ seen) :
    is_unique_email seen email = (false, seen) := by
  simp [is_unique_email, h]

theorem is_unique_email_not_mem (seen : List String) (email : String)
    (h : normalize_email email ∉ seen) :
    is_unique_email seen email = (true, normalize_email email :: seen) := by
  simp [is_unique_email, h]

theorem process_emails_cons_mem (seen : List String) (email : String)
    (rest : List String) (h : normalize_email email ∈ seen) :
    process_emails seen (email :: rest) = process_emails seen rest := by
  simp [process_emails, is_unique_email_mem seen email h]

theorem process_emails_cons_not_mem (seen : List String) (email : String)
    (rest : List String) (h : normalize_email email ∉ seen) :
    process_emails seen (email :: rest) =
      (email :: (process_emails (normalize_email email :: seen) rest).1,
        (process_emails (normalize_email email :: seen) rest).2) := by
  simp [process_emails, is_unique_email_not_mem seen email h]

theorem process_emails_facts (es : List String) : ∀ seen : List String,
    (process_emails seen es).1.Sublist es ∧
    (∀ a ∈ (process_emails seen es).1, normalize_email a ∉ seen) ∧
    List.Pairwise (fun a b => normalize_email a ≠ normalize_email b)
      (process_emails seen es).1 := by
  induction es with
  | nil =>
    intro seen
    simp [process_emails]
  | cons email rest ih =>
    intro seen
    by_cases h : normalize_email email ∈ seen
    · rw [process_emails_cons_mem seen email rest h]
      obtain ⟨h1, h2, h3⟩ := ih seen
      exact ⟨h1.cons email, h2, h3⟩
    · rw [process_emails_cons_not_mem seen email rest h]
      obtain ⟨h1, h2, h3⟩ := ih (normalize_email email :: seen)
      refine ⟨List.Sublist.cons₂ email h1, ?_, ?_⟩
      · intro a ha
        rcases List.mem_cons.mp ha with heq | hmem
        · rw [heq]; exact h
        · intro hseen
          exact h2 a hmem (List.mem_cons_of_mem _ hseen)
      · rw [List.pairwise_cons]
        refine ⟨?_, h3⟩
        intro b hb heq
        exact h2 b hb (heq ▸ List.mem_cons_self _ _)

theorem process_emails_first_seen (l1 : List String) (e : String)
    (l2 : List String) : ∀ seen : List String,
    normalize_email e ∉ seen →
    (∀ x ∈ l1, normalize_email x ≠ normalize_email e) →
    e ∈ (process_emails seen (l1 ++ e :: l2)).1 := by
  induction l1 with
  | nil =>
    intro seen h _
    rw [List.nil_append, process_emails_cons_not_mem seen e l2 h]
    exact List.mem_cons_self e _
  | cons a l1 ih =>
    intro seen h hfirst
    rw [List.cons_append]
    by_cases ha : normalize_email a ∈ seen
    · rw [process_emails_cons_mem seen a _ ha]
      exact ih seen h (fun x hx => hfirst x (List.mem_cons_of_mem a hx))
    · rw [process_emails_cons_not_mem seen a _ ha]
      apply List.mem_cons_of_mem
      apply ih
      · intro hmem
        rcases List.mem_cons.mp hmem with heq | hmem'
        · exact hfirst a (List.mem_cons_self a l1) heq.symm
        · exact h hmem'
      · intro x hx
        exact hfirst x (List.mem_cons_of_mem a hx)

/-- C7: email deduplication is case-insensitive and keeps the first-seen
original casing.  The kept list is a subsequence of the candidates (so
every kept address is in its original, un-lowercased spelling and
original order); no kept address normalizes into the pre-seeded set; no
two kept addresses share a normalized (trimmed, lower-cased) form; the
first candidate of each normalization class not already seen is kept;
and concretely "A@Foo.COM" followed by "a@foo.com" yields only
"A@Foo.COM". -/
theorem process_emails_case_insensitive_first_seen (seen es : List String) :
    (process_emails seen es).1.Sublist es ∧
    (∀ a ∈ (process_emails seen es).1, normalize_email a ∉ seen) ∧
    List.Pairwise (fun a b => normalize_email a ≠ normalize_email b)
      (process_emails seen es).1 ∧
    (∀ l1 e l2, es = l1 ++ e :: l2 → normalize_email e ∉ seen →
      (∀ x ∈ l1, normalize_email x ≠ normalize_email e) →
      e ∈ (process_emails seen es).1) ∧
    process_emails [] ["A@Foo.COM", "a@foo.com"] = (["A@Foo.COM"], ["a@foo.com"]) := by
  obtain ⟨h1, h2, h3⟩ := process_emails_facts es seen
  refine ⟨h1, h2, h3, ?_, by decide⟩
  intro l1 e l2 heq hseen hfirst
  rw [heq]
  exact process_emails_first_seen l1 e l2 seen hseen hfirst

/-- Concrete instance of C7: the claim's own example, via the first-seen
clause of the theorem. -/
theorem process_emails_case_insensitive_first_seen_witness :
    "A@Foo.COM" ∈ (process_emails [] ["A@Foo.COM", "a@foo.com"]).1 :=
  (process_emails_case_insensitive_first_seen [] ["A@Foo.COM", "a@foo.com"]).2.2.2.1
    [] "A@Foo.COM" ["a@foo.com"] rfl (by decide)
    (fun x hx => absurd hx (List.not_mem_nil x))

/-- An input record of the enrichment pass, as pandas delivers it:
`website` is `none` when the cell was empty or held the "N/A" sentinel
(both parse as NaN, so `pd.notna(row['website'])` is false); the
remaining columns are opaque for this pass and kept as one value. -/
structure PlaceRow where
  name : String
  website : Option String
  otherFields : String
deriving Repr, DecidableEq

/-- One output row of `gmaps_data_with_emails.csv`: the input record
plus the `emails` column.  `[]` stands for the "N/A" sentinel (written
when no email was kept; read back as NaN and dropped by `dropna`). -/
structure EmailRow where
  place : PlaceRow
  emails : List String
deriving Repr, DecidableEq

/-- `EmailScraper.save_row_to_csv`: create the file with this one row
if it does not exist, else append the row. -/
def save_row_to_csv (file : Option (List EmailRow)) (row : EmailRow) :
    List EmailRow :=
  match file with
  | none => [row]
  | some rows => rows ++ [row]

/-- The preload loop at the top of `process_websites`: every email
already present in the existing output file is normalized and added to
`seen_emails`. -/
def preload_seen : Option (List EmailRow) → List String
  | none => []
  | some rows => rows.foldl (fun acc r => acc ++ r.emails.map normalize_email) []

/-- `EmailScraper.scrape_email_from_website` on the opaque fetch result:
`none` models a failed fetch (the exception handler leaves `emails`
empty and the seen-set untouched); `some candidates` models the
regex-matched, validity-filtered address strings of the response body,
which are then deduplicated by `process_emails`. -/
def scrape_email_from_website (seen : List String)
    (fetched : Option (List String)) : List String × List String :=
  match fetched with
  | none => ([], seen)
  | some candidates => process_emails seen candidates

/-- One turn of the `for index, row in df.iterrows()` loop of
`process_websites`, threading (output file, `results` accumulator,
`seen_emails`).  A row with no website value is skipped entirely. -/
def enrichStep (fetch : PlaceRow → Option (List String))
    (st : Option (List EmailRow) × List EmailRow × List String)
    (row : PlaceRow) :
    Option (List EmailRow) × List EmailRow × List String :=
  match row.website with
  | some _ =>
    let r := scrape_email_from_website st.2.2 (fetch row)
    let new_row : EmailRow := ⟨row, r.1⟩
    (some (save_row_to_csv st.1 new_row), st.2.1 ++ [new_row], r.2)
  | none => st

/-- `EmailScraper.process_websites`: preload `seen_emails` from the
existing output file, loop over the input records (appending each
augmented row to the file as it is produced), then perform the final
`result_df.to_csv(output_file, index=False)`, which REPLACES the file's
contents with exactly this run's `results` list.  Returns the output
file's final contents. -/
def process_websites (fetch : PlaceRow → Option (List String))
    (df : List PlaceRow) (file0 : Option (List EmailRow)) :
    Option (List EmailRow) :=
  some (df.foldl (enrichStep fetch) (file0, [], preload_seen file0)).2.1

/-- C8: the claim — every row present in the output file before the run
is still present after it — fails; the trailing
`result_df.to_csv(output_file, index=False)` in `process_websites`
rewrites the file with only this run's rows.  Concretely: the file holds
one previously enriched row for "A Shop"; a run over one record
"B Corp" ends with the file holding only the "B Corp" row, and the
"A Shop" row is gone. -/
theorem final_save_drops_prior_rows :
    process_websites (fun _ => some [])
        [⟨"B Corp", some "http://b.example", "x"⟩]
        (some [⟨⟨"A Shop", some "http://a.example", "x"⟩, ["a@a.example"]⟩]) =
      some [⟨⟨"B Corp", some "http://b.example", "x"⟩, []⟩] ∧
    (⟨⟨"A Shop", some "http://a.example", "x"⟩, ["a@a.example"]⟩ : EmailRow) ∉
      [(⟨⟨"B Corp", some "http://b.example", "x"⟩, []⟩ : EmailRow)] := by
  decide

theorem enrichStep_results_websites (fetch : PlaceRow → Option (List String))
    (df : List PlaceRow)
    (st : Option (List EmailRow) × List EmailRow × List String)
    (hst : ∀ r ∈ st.2.1, r.place.website.isSome = true) :
    ∀ r ∈ (df.foldl (enrichStep fetch) st).2.1,
      r.place.website.isSome = true := by
  induction df generalizing st with
  | nil => simpa using hst
  | cons row df ih =>
    rw [List.foldl_cons]
    apply ih
    intro r hr
    cases hw : row.website with
    | none =>
      simp only [enrichStep, hw] at hr
      exact hst r hr
    | some w =>
      simp only [enrichStep, hw] at hr
      simp at hr
      rcases hr with hr | hr
      · exact hst r hr
      · rw [hr]
        simp [hw]

/-- C10 (implicit): the enrichment pass emits output rows only for input
records with a present website value; a record whose website is missing
(`pd.notna` false) is dropped — it contributes no row at all to the
enrichment output, rather than passing through with a sentinel emails
field.  Every row of the final output has a present website. -/
theorem enrichment_skips_missing_website
    (fetch : PlaceRow → Option (List String)) (df : List PlaceRow)
    (file0 : Option (List EmailRow)) (r : EmailRow)
    (hr : r ∈ (process_websites fetch df file0).getD []) :
    r.place.website.isSome = true := by
  unfold process_websites at hr
  simp at hr
  exact enrichStep_results_websites fetch df (file0, [], preload_seen file0)
    (fun r hr => absurd hr (List.not_mem_nil r)) r hr

/-- Concrete instance of C10: input records "A" (with website) and "B"
(without); the output holds only the "A" row, whose website is present.
-/
theorem enrichment_skips_missing_website_witness :
    ((⟨⟨"A", some "http://a.example", "x"⟩, []⟩ : EmailRow)).place.website.isSome = true :=
  enrichment_skips_missing_website (fun _ => some [])
    [⟨"A", some "http://a.example", "x"⟩, ⟨"B", none, "x"⟩] none
    ⟨⟨"A", some "http://a.example", "x"⟩, []⟩ (by decide)

/-!
## Store loading (`GoogleMapsExtractor.setup_files`, read branch)

`csv.DictReader` semantics for one data row: the value under the i-th
header name, or `None` (here `none`) when the row has fewer cells than
the header (`restval` default); completely blank rows are skipped.
`name` is column 0 of the header list and `address` column 3.
-/

/-- The header row `setup_files` writes; column 0 is `name`, column 3 is
`address`. -/
def csv_headers : List String :=
  ["name", "rating", "reviews", "address", "phone", "website",
   "latitude", "longitude", "extracted_time"]

/-- `csv.DictReader` cell access for the i-th header column. -/
def dictReaderCell (row : List String) (i : Nat) : Option String :=
  row.get? i

/-- The identity key `(row['name'], row['address'])` the load loop adds
to `seen_places`, with DictReader cell semantics. -/
def loadSeenKey (row : List String) : Option String × Option String :=
  (dictReaderCell row 0, dictReaderCell row 3)

/-- The load loop of `setup_files`: one identity key per non-blank
persisted data row. -/
def load_seen_places (rows : List (List String)) :
    List (Option String × Option String) :=
  (rows.filter (fun r => !r.isEmpty)).map loadSeenKey

/-- C9 counterexample: a persisted row holding only a name cell.  The
load loop does not fail and still yields a key, but the missing address
field is `None` (DictReader's `restval`), not the "N/A" sentinel the
claim states. -/
theorem load_missing_field_not_sentinel_cex :
    load_seen_places [["Joe Diner"]] = [(some "Joe Diner", none)] ∧
    ((some "Joe Diner", (none : Option String)).2 = some "N/A") = False := by
  simp [load_seen_places, loadSeenKey, dictReaderCell]

/-- C9 amended: loading never fails on a schema-deficient row — every
non-blank persisted row, however many trailing columns it is missing,
still contributes an identity key to the seen-set — but a missing field
is represented by `csv.DictReader`'s `restval` `None`, not by the
"N/A" sentinel string. -/
theorem load_missing_columns_default_none (rows : List (List String))
    (row : List String) (hmem : row ∈ rows) (hne : row ≠ [])
    (hshort : row.length ≤ 3) :
    loadSeenKey row ∈ load_seen_places rows ∧
    (loadSeenKey row).2 = none := by
  constructor
  · unfold load_seen_places
    apply List.mem_map_of_mem
    apply List.mem_filter.mpr
    refine ⟨hmem, ?_⟩
    cases row with
    | nil => exact absurd rfl hne
    | cons a t => rfl
  · unfold loadSeenKey dictReaderCell
    simp only []
    exact List.get?_eq_none.mpr hshort

/-- Concrete instance of C9 (amended): the one-cell row "Joe Diner". -/
theorem load_missing_columns_default_none_witness :
    loadSeenKey ["Joe Diner"] ∈ load_seen_places [["Joe Diner"]] ∧
    (loadSeenKey ["Joe Diner"]).2 = none :=
  load_missing_columns_default_none [["Joe Diner"]] ["Joe Diner"]
    (by simp) (by simp) (by simp)
